import Mathlib

/-!
Verification of the semantic-cache decision engine (milosmiric/semantic-cache).

Shallow embedding of the core components:
* `CacheEntry`, `SimilaritySearchResult` — the data model from `src/lib/types.ts`.
* `MockVectorStore` — the in-memory vector store from `src/__tests__/mocks.ts`
  (insertion-ordered entry list, call logs, stable descending sort by score).
  The similarity function is a parameter `sim`, standing for the float cosine
  the mock computes; no proved property depends on its values.
* `MongoDBVectorStore.searchSimilar` — the aggregation pipeline from
  `src/lib/storage/mongodb.ts`, modelled as a function of the globally ranked
  candidate list the ANN index would produce.
* `SemanticCache.query` / `SemanticCache.lookup` — the schema-aware engine
  from `src/lib/cache/semantic-cache.ts` (first version in the file), and
  `SemanticCacheV1.query` / `SemanticCacheV1.lookup` — the older string-only
  engine (second version in the file).

Modelling conventions: machine floats of the scoring path are embedded as
rationals (the engine only compares scores); wall-clock timing fields
(`totalTimeMs`, `lookupTimeMs`, `timeSavedMs`, `lastLLMCallDuration`) are not
modelled — no claim depends on them; `Date.now` is an explicit `now : Nat`
parameter.  Fallible collaborator calls return `Except String`; a thrown JS
exception is the `.error` case, and engine functions return the final state
next to the `Except` so that mutations performed before a throw are visible,
exactly as they are in the source.
-/
/-- `CacheEntry` from `src/lib/types.ts`: a stored query/response pair.
`_id` is `id` here; timestamps are abstract `Nat` ticks; `metadata` is
uninterpreted free-form data. -/
structure CacheEntry where
  id : Option String
  query : String
  response : String
  embedding : List ℚ
  createdAt : Nat
  hitCount : Nat
  lastAccessedAt : Nat
  schemaHash : Option String
  metadata : Option String
deriving DecidableEq, Repr

/-- `SimilaritySearchResult` from `src/lib/types.ts`. -/
structure SimilaritySearchResult where
  entry : CacheEntry
  score : ℚ
deriving DecidableEq, Repr

/-- `MockVectorStore` state from `src/__tests__/mocks.ts`: an in-memory,
insertion-ordered map of entries, an id counter, and the call logs. -/
structure MockVectorStore where
  entries : List (String × CacheEntry)
  idCounter : Nat
  storeCalls : List CacheEntry
  searchCalls : List (List ℚ × Nat × Option String)
deriving DecidableEq, Repr

/-- `MockVectorStore.store`: logs the call, assigns the fresh id
`mock_id_<counter+1>` and appends the entry. -/
def MockVectorStore.store (s : MockVectorStore) (entry : CacheEntry) :
    String × MockVectorStore :=
  let newId := "mock_id_" ++ toString (s.idCounter + 1)
  (newId,
    { s with
      storeCalls := s.storeCalls ++ [entry]
      idCounter := s.idCounter + 1
      entries := s.entries ++ [(newId, { entry with id := some newId })] })

/-- Stable insertion into a list sorted by score descending: the new element
goes after every strictly greater score and before equal ones it is older
than (the JS `sort((a, b) => b.score - a.score)` is stable). -/
def insertByScoreDesc (r : SimilaritySearchResult) :
    List SimilaritySearchResult → List SimilaritySearchResult
  | [] => [r]
  | x :: xs => if r.score < x.score then x :: insertByScoreDesc r xs else r :: x :: xs

/-- Stable sort by score descending, modelling the JS array sort. -/
def sortByScoreDesc : List SimilaritySearchResult → List SimilaritySearchResult
  | [] => []
  | x :: xs => insertByScoreDesc x (sortByScoreDesc xs)

/-- `MockVectorStore.searchSimilar`: logs the call, keeps an entry unless a
schema filter is present and the stored hash differs from it (note: this drops
entries with an absent hash), scores each kept entry with `sim`, sorts by
score descending (stable, as the JS sort), and truncates to `limit`. -/
def MockVectorStore.searchSimilar (sim : List ℚ → List ℚ → ℚ)
    (s : MockVectorStore) (embedding : List ℚ) (limit : Nat)
    (schemaHash : Option String) :
    List SimilaritySearchResult × MockVectorStore :=
  let s1 := { s with searchCalls := s.searchCalls ++ [(embedding, limit, schemaHash)] }
  let kept := s.entries.filter fun p => !(schemaHash.isSome && p.2.schemaHash != schemaHash)
  let results := kept.map fun p =>
    ({ entry := p.2, score := sim embedding p.2.embedding } : SimilaritySearchResult)
  (( sortByScoreDesc results).take limit, s1)

/-- The entry update `recordHit` performs: `entry.hitCount++` and
`entry.lastAccessedAt = new Date()`. -/
def bumpHit (now : Nat) (e : CacheEntry) : CacheEntry :=
  { e with hitCount := e.hitCount + 1, lastAccessedAt := now }

/-- `MockVectorStore.recordHit`: increments the matched entry's hit count and
sets its `lastAccessedAt` to the call time; everything else is untouched. -/
def MockVectorStore.recordHit (s : MockVectorStore) (entryId : String) (now : Nat) :
    MockVectorStore :=
  { s with
    entries := s.entries.map fun p =>
      if p.1 = entryId then (p.1, bumpHit now p.2) else p }

/-- `Map.get` of the mock store: the entry stored under a given id. -/
def MockVectorStore.lookupEntry (s : MockVectorStore) (entryId : String) :
    Option CacheEntry :=
  (s.entries.find? fun p => p.1 = entryId).map Prod.snd

/-- The fingerprint post-filter of `MongoDBVectorStore.searchSimilar`
(`src/lib/storage/mongodb.ts`, the `$match` stage): an entry passes a filter
`schemaHash` when its stored hash equals it or is absent (legacy wildcard,
`$exists: false`). -/
def mongoSchemaFilter (schemaHash : String) (e : CacheEntry) : Bool :=
  e.schemaHash = some schemaHash || e.schemaHash = none

/-- `numCandidates` sent to `$vectorSearch`: `limit * 20`
("Increase candidates when filtering by schema"). -/
def searchNumCandidates (limit : Nat) : Nat :=
  limit * 20

/-- The `limit` field of the `$vectorSearch` stage: `limit * 5` when a schema
filter will be applied ("Fetch more if we will filter"), else `limit`. -/
def searchPreFilterLimit (limit : Nat) (schemaHash : Option String) : Nat :=
  if schemaHash.isSome then limit * 5 else limit

/-- `MongoDBVectorStore.searchSimilar` as a function of the ranked candidate
list the ANN index scores for the query vector (descending by score).  The
`$vectorSearch` stage explores `numCandidates` of them and returns at most its
`limit` field; the pipeline then applies the schema `$match` and a final
`$limit` when a filter is present. -/
def MongoDBVectorStore.searchSimilar (ranked : List SimilaritySearchResult)
    (limit : Nat) (schemaHash : Option String) : List SimilaritySearchResult :=
  let vectorSearchOut :=
    (ranked.take (searchNumCandidates limit)).take (searchPreFilterLimit limit schemaHash)
  match schemaHash with
  | some h => ((vectorSearchOut.filter fun r => mongoSchemaFilter h r.entry).take limit)
  | none => vectorSearchOut

/-- `MockLLMProvider` from `src/__tests__/mocks.ts`, generalized over the
response maps: `completeFn` stands for the responseMap/default lookup of
`complete`, `structuredFn` for `schema.parse(mockResponse)` of
`completeStructured` ("will throw if invalid", hence `Except`).  Both log the
prompt before producing a result, as the mock does. -/
structure MockLLMProvider (Sch Val : Type) where
  completeCalls : List String
  structuredCalls : List (String × Sch)
  completeFn : String → Except String String
  structuredFn : String → Sch → Except String Val

/-- `MockLLMProvider.complete`: push the prompt, then answer. -/
def MockLLMProvider.complete (llm : MockLLMProvider Sch Val) (prompt : String) :
    Except String String × MockLLMProvider Sch Val :=
  (llm.completeFn prompt, { llm with completeCalls := llm.completeCalls ++ [prompt] })

/-- `MockLLMProvider.completeStructured`: push the prompt, then answer. -/
def MockLLMProvider.completeStructured (llm : MockLLMProvider Sch Val)
    (prompt : String) (schema : Sch) :
    Except String Val × MockLLMProvider Sch Val :=
  (llm.structuredFn prompt schema,
   { llm with structuredCalls := llm.structuredCalls ++ [(prompt, schema)] })

/-- The injected collaborators of the engine that are pure from its point of
view: the embedding call (fallible remote call), the similarity function the
mock store uses, `JSON.stringify`/`JSON.parse` over the structured-value type
`Val`, and the SHA-256 core of `computeSchemaHash` (uninterpreted). -/
structure Env (Sch Val : Type) where
  embedF : String → Except String (List ℚ)
  sim : List ℚ → List ℚ → ℚ
  stringify : Val → String
  jsonParse : String → Except String Val
  hashCore : Sch → String

/-- `computeSchemaHash` from `src/lib/cache/semantic-cache.ts`: the truncated
SHA-256 of the schema definition, prefixed with `schema_`. -/
def computeSchemaHash (env : Env Sch Val) (schema : Sch) : String :=
  "schema_" ++ env.hashCore schema

/-- The mutable state of a `SemanticCache` instance together with its
stateful collaborators (mock store and mock LLM).  `lastLLMCallDuration` is
wall-clock timing state and is not modelled. -/
structure SemanticCacheState (Sch Val : Type) where
  storage : MockVectorStore
  llm : MockLLMProvider Sch Val
  similarityThreshold : ℚ

/-- A query response: the raw string of the string path, or a structured
value of the schema path. -/
inductive CacheResponse (Val : Type) where
  | text (s : String)
  | structured (v : Val)
deriving DecidableEq, Repr

/-- `QueryResult` from `src/lib/types.ts`, timing fields omitted. -/
structure QueryResult (Val : Type) where
  response : CacheResponse Val
  fromCache : Bool
  similarityScore : Option ℚ
deriving DecidableEq, Repr

/-- `CacheLookupResult` from `src/lib/types.ts`, timing field omitted. -/
structure CacheLookupResult where
  hit : Bool
  response : Option String
  score : Option ℚ
  query : String
deriving DecidableEq, Repr

/-- `SemanticCache.query` (schema-aware version, `src/lib/cache/semantic-cache.ts`
lines 154-246).  Computes the schema hash, embeds the query, searches with
`limit = 1` filtered by the hash; on a hit (at least one result with score at
or above the threshold) records the hit when the entry has an id, then parses
the stored response when a schema is present (`JSON.parse`, can throw);
otherwise calls the LLM (structured when a schema is present, serializing the
value with `JSON.stringify`) and stores a new entry with the fresh embedding,
the hash, hit count `0` and the current timestamps.  The returned state
reflects all mutations performed before any thrown error. -/
def SemanticCache.query (env : Env Sch Val) (st : SemanticCacheState Sch Val)
    (queryText : String) (options : Option Sch) (now : Nat) :
    Except String (QueryResult Val) × SemanticCacheState Sch Val :=
  let schemaHash := options.map (computeSchemaHash env)
  match env.embedF queryText with
  | .error e => (.error e, st)
  | .ok embedding =>
    let searchOut := st.storage.searchSimilar env.sim embedding 1 schemaHash
    let results := searchOut.1
    let storage1 := searchOut.2
    let st1 := { st with storage := storage1 }
    let miss : SemanticCacheState Sch Val →
        Except String (QueryResult Val) × SemanticCacheState Sch Val := fun s =>
      match options with
      | some schema =>
        let structuredOut := s.llm.completeStructured queryText schema
        let s1 := { s with llm := structuredOut.2 }
        match structuredOut.1 with
        | .error e => (.error e, s1)
        | .ok parsedResponse =>
          let response := env.stringify parsedResponse
          let storage2 := (s1.storage.store
            { id := none, query := queryText, response := response,
              embedding := embedding, createdAt := now, hitCount := 0,
              lastAccessedAt := now, schemaHash := schemaHash, metadata := none }).2
          (.ok { response := .structured parsedResponse, fromCache := false,
                 similarityScore := none },
           { s1 with storage := storage2 })
      | none =>
        let completeOut := s.llm.complete queryText
        let s1 := { s with llm := completeOut.2 }
        match completeOut.1 with
        | .error e => (.error e, s1)
        | .ok response =>
          let storage2 := (s1.storage.store
            { id := none, query := queryText, response := response,
              embedding := embedding, createdAt := now, hitCount := 0,
              lastAccessedAt := now, schemaHash := schemaHash, metadata := none }).2
          (.ok { response := .text response, fromCache := false,
                 similarityScore := none },
           { s1 with storage := storage2 })
    match results with
    | topResult :: _ =>
      if st.similarityThreshold ≤ topResult.score then
        let storage2 :=
          match topResult.entry.id with
          | some eid => storage1.recordHit eid now
          | none => storage1
        let st2 := { st1 with storage := storage2 }
        match options with
        | some _ =>
          match env.jsonParse topResult.entry.response with
          | .error e => (.error e, st2)
          | .ok parsedResponse =>
            (.ok { response := .structured parsedResponse, fromCache := true,
                   similarityScore := some topResult.score }, st2)
        | none =>
          (.ok { response := .text topResult.entry.response, fromCache := true,
                 similarityScore := some topResult.score }, st2)
      else miss st1
    | [] => miss st1

/-- `SemanticCache.lookup` (schema-aware version, lines 258-312): embeds the
query unless an embedding was supplied, searches with `limit = 1` filtered by
the given schema hash, and applies the threshold test; on a hit records the
hit (when the entry has an id) and returns the raw stored response; never
touches the LLM and never stores. -/
def SemanticCache.lookup (env : Env Sch Val) (st : SemanticCacheState Sch Val)
    (queryText : String) (embedding : Option (List ℚ))
    (schemaHash : Option String) (now : Nat) :
    Except String CacheLookupResult × SemanticCacheState Sch Val :=
  let embedded : Except String (List ℚ) :=
    match embedding with
    | some e => .ok e
    | none => env.embedF queryText
  match embedded with
  | .error e => (.error e, st)
  | .ok queryEmbedding =>
    let searchOut := st.storage.searchSimilar env.sim queryEmbedding 1 schemaHash
    let results := searchOut.1
    let storage1 := searchOut.2
    let st1 := { st with storage := storage1 }
    match results with
    | [] =>
      (.ok { hit := false, response := none, score := none, query := queryText }, st1)
    | topResult :: _ =>
      if st.similarityThreshold ≤ topResult.score then
        let storage2 :=
          match topResult.entry.id with
          | some eid => storage1.recordHit eid now
          | none => storage1
        (.ok { hit := true, response := some topResult.entry.response,
               score := some topResult.score, query := queryText },
         { st1 with storage := storage2 })
      else
        (.ok { hit := false, response := none, score := some topResult.score,
               query := queryText }, st1)

/-- JS truthiness of a `string | undefined` value: `undefined` and the empty
string are falsy. -/
def strTruthy : Option String → Bool
  | none => false
  | some s => s ≠ ""

/-- `SemanticCache.lookup` of the older string-only version (second copy in
`src/lib/cache/semantic-cache.ts`, lines 517-566): identical logic with no
schema filter argument (the search is called without a hash). -/
def SemanticCacheV1.lookup (env : Env Sch Val) (st : SemanticCacheState Sch Val)
    (queryText : String) (embedding : Option (List ℚ)) (now : Nat) :
    Except String CacheLookupResult × SemanticCacheState Sch Val :=
  let embedded : Except String (List ℚ) :=
    match embedding with
    | some e => .ok e
    | none => env.embedF queryText
  match embedded with
  | .error e => (.error e, st)
  | .ok queryEmbedding =>
    let searchOut := st.storage.searchSimilar env.sim queryEmbedding 1 none
    let results := searchOut.1
    let storage1 := searchOut.2
    let st1 := { st with storage := storage1 }
    match results with
    | [] =>
      (.ok { hit := false, response := none, score := none, query := queryText }, st1)
    | topResult :: _ =>
      if st.similarityThreshold ≤ topResult.score then
        let storage2 :=
          match topResult.entry.id with
          | some eid => storage1.recordHit eid now
          | none => storage1
        (.ok { hit := true, response := some topResult.entry.response,
               score := some topResult.score, query := queryText },
         { st1 with storage := storage2 })
      else
        (.ok { hit := false, response := none, score := some topResult.score,
               query := queryText }, st1)

/-- `SemanticCache.query` of the older string-only version (lines 465-506):
embeds the query, delegates the search-and-threshold step to `lookup`
(passing the embedding), and treats the outcome as a hit only when
`lookupResult.hit && lookupResult.response` is truthy — an empty cached
string falls through to the miss path, which calls the LLM and stores a new
entry (with no schema hash field). -/
def SemanticCacheV1.query (env : Env Sch Val) (st : SemanticCacheState Sch Val)
    (queryText : String) (now : Nat) :
    Except String (QueryResult Val) × SemanticCacheState Sch Val :=
  match env.embedF queryText with
  | .error e => (.error e, st)
  | .ok embedding =>
    match SemanticCacheV1.lookup env st queryText (some embedding) now with
    | (.error e, st1) => (.error e, st1)
    | (.ok lookupResult, st1) =>
      if lookupResult.hit && strTruthy lookupResult.response then
        (.ok { response := .text (lookupResult.response.getD ""), fromCache := true,
               similarityScore := lookupResult.score }, st1)
      else
        let completeOut := st1.llm.complete queryText
        let st2 := { st1 with llm := completeOut.2 }
        match completeOut.1 with
        | .error e => (.error e, st2)
        | .ok response =>
          let storage2 := (st2.storage.store
            { id := none, query := queryText, response := response,
              embedding := embedding, createdAt := now, hitCount := 0,
              lastAccessedAt := now, schemaHash := none, metadata := none }).2
          (.ok { response := .text response, fromCache := false,
                 similarityScore := none },
           { st2 with storage := storage2 })

/-- `SemanticCache.setThreshold` (lines 355-360): rejects values outside
`[0,1]` with `Error("Threshold must be between 0 and 1")`, otherwise installs
the new threshold.  On rejection no state is produced: nothing is mutated. -/
def SemanticCache.setThreshold (st : SemanticCacheState Sch Val) (threshold : ℚ) :
    Except String (SemanticCacheState Sch Val) :=
  if threshold < 0 ∨ 1 < threshold then
    .error "Threshold must be between 0 and 1"
  else
    .ok { st with similarityThreshold := threshold }

/-- Decidable equality for `Except`, so witnesses can be checked by `decide`. -/
instance {α β : Type} [DecidableEq α] [DecidableEq β] : DecidableEq (Except α β) :=
  fun a b =>
    match a, b with
    | .ok x, .ok y => decidable_of_iff (x = y) (by simp)
    | .error x, .error y => decidable_of_iff (x = y) (by simp)
    | .ok _, .error _ => isFalse (fun h => Except.noConfusion h)
    | .error _, .ok _ => isFalse (fun h => Except.noConfusion h)

/-- Observation used to compare the two engine versions: the response and the
`fromCache` flag of a query outcome (or the propagated error). -/
def queryView (p : Except String (QueryResult Val) × SemanticCacheState Sch Val) :
    Except String (CacheResponse Val × Bool) :=
  p.1.map fun r => (r.response, r.fromCache)

/-- The dot-product loop of `MockVectorStore.cosineSimilarity` (only reached
when the lengths are equal, so paired traversal is exact). -/
def dotList (a b : List ℝ) : ℝ :=
  (a.zip b).foldl (fun acc p => acc + p.1 * p.2) 0

/-- The squared-magnitude accumulation of the same loop. -/
def sumSq (a : List ℝ) : ℝ :=
  a.foldl (fun acc x => acc + x * x) 0

/-- `Math.sqrt(magnitude)`: the Euclidean norm of a vector. -/
noncomputable def normVec (a : List ℝ) : ℝ :=
  Real.sqrt (sumSq a)

/-- `MockVectorStore.cosineSimilarity` from `src/__tests__/mocks.ts`
(lines 226-241): `0` when the lengths differ, `0` when the product of the
norms is `0`, otherwise `dot / (‖a‖ * ‖b‖)`.  A total function: the source
never throws. -/
noncomputable def MockVectorStore.cosineSimilarity (a b : List ℝ) : ℝ :=
  if a.length ≠ b.length then 0
  else if normVec a * normVec b = 0 then 0
  else dotList a b / (normVec a * normVec b)

/-- A concrete pre-schema ("legacy") entry: no stored schema hash. -/
def legacyEntry : CacheEntry :=
  { id := some "e1", query := "q", response := "Paris", embedding := [1],
    createdAt := 0, hitCount := 0, lastAccessedAt := 0,
    schemaHash := none, metadata := none }

/-- A mock store holding only the legacy entry. -/
def mockStoreLegacy : MockVectorStore :=
  { entries := [("e1", legacyEntry)], idCounter := 1,
    storeCalls := [], searchCalls := [] }

/-- A concrete engine state used by witnesses: empty store, trivially
answering LLM, threshold `1`. -/
def stEmpty : SemanticCacheState Unit Unit :=
  { storage := { entries := [], idCounter := 0, storeCalls := [], searchCalls := [] },
    llm := { completeCalls := [], structuredCalls := [],
             completeFn := fun _ => .ok "r", structuredFn := fun _ _ => .ok () },
    similarityThreshold := 1 }

/-- A trivial concrete collaborator environment for witnesses. -/
def envTriv : Env Unit Unit :=
  { embedF := fun _ => .ok [1], sim := fun _ _ => 1, stringify := fun _ => "null",
    jsonParse := fun _ => .ok (), hashCore := fun _ => "aaaa" }

/-- A one-entry engine state (legacy entry, threshold `1`). -/
def stOne : SemanticCacheState Unit Unit :=
  { storage := mockStoreLegacy, llm := stEmpty.llm, similarityThreshold := 1 }

/-- A stored entry carrying fingerprint `schema_aaaa` whose stored response
fails the JSON parse model. -/
def schemaEntry : CacheEntry :=
  { id := some "e1", query := "q", response := "Paris", embedding := [1],
    createdAt := 0, hitCount := 0, lastAccessedAt := 0,
    schemaHash := some "schema_aaaa", metadata := none }

/-- Collaborators whose `JSON.parse` always throws. -/
def envParseFail : Env Unit Unit :=
  { embedF := fun _ => .ok [1], sim := fun _ _ => 1, stringify := fun _ => "null",
    jsonParse := fun _ => .error "SyntaxError", hashCore := fun _ => "aaaa" }

/-- A one-entry state whose entry matches the fingerprint filter. -/
def stSchemaOne : SemanticCacheState Unit Unit :=
  { storage := { entries := [("e1", schemaEntry)], idCounter := 1,
                 storeCalls := [], searchCalls := [] },
    llm := stEmpty.llm, similarityThreshold := 1 }

/-- The persistent identity of an entry: every field except the hit-tracking
pair `hitCount` / `lastAccessedAt`. -/
def entrySkeleton (e : CacheEntry) :
    Option String × String × String × List ℚ × Nat × Option String × Option String :=
  (e.id, e.query, e.response, e.embedding, e.createdAt, e.schemaHash, e.metadata)

/-- A stored entry whose cached response is the empty string. -/
def emptyRespEntry : CacheEntry :=
  { id := some "e1", query := "q", response := "", embedding := [1],
    createdAt := 0, hitCount := 0, lastAccessedAt := 0,
    schemaHash := none, metadata := none }

/-- A one-entry state holding the empty-response entry, threshold `1`. -/
def stEmptyResp : SemanticCacheState Unit Unit :=
  { storage := { entries := [("e1", emptyRespEntry)], idCounter := 1,
                 storeCalls := [], searchCalls := [] },
    llm := stEmpty.llm, similarityThreshold := 1 }

/-- C5: the reference cosine-similarity comparator returns
`dot(a,b) / (‖a‖ * ‖b‖)` for equal-length vectors with non-zero norms,
and `0` when either norm is `0` or the lengths differ.  It is a total
function (defined on all inputs), so it never raises. -/
theorem cosineSimilarity_spec (a b : List ℝ) :
    (a.length = b.length → normVec a ≠ 0 → normVec b ≠ 0 →
      MockVectorStore.cosineSimilarity a b = dotList a b / (normVec a * normVec b)) ∧
    (normVec a = 0 ∨ normVec b = 0 ∨ a.length ≠ b.length →
      MockVectorStore.cosineSimilarity a b = 0) := by
  constructor
  · intro hlen ha hb
    unfold MockVectorStore.cosineSimilarity
    rw [if_neg (by simp [hlen]), if_neg (mul_ne_zero ha hb)]
  · intro h
    unfold MockVectorStore.cosineSimilarity
    by_cases hlen : a.length ≠ b.length
    · rw [if_pos hlen]
    · rw [if_neg hlen]
      have hmag : normVec a * normVec b = 0 := by
        rcases h with h | h | h
        · rw [h, zero_mul]
        · rw [h, mul_zero]
        · exact absurd h hlen
      rw [if_pos hmag]

/-- Witness for C5 at `a = b = [1]`. -/
theorem cosineSimilarity_spec_witness :
    ([(1:ℝ)].length = [(1:ℝ)].length ∧ normVec [(1:ℝ)] ≠ 0) ∧
    MockVectorStore.cosineSimilarity [(1:ℝ)] [(1:ℝ)] =
      dotList [(1:ℝ)] [(1:ℝ)] / (normVec [(1:ℝ)] * normVec [(1:ℝ)]) := by
  have hn : normVec [(1:ℝ)] ≠ 0 := by
    unfold normVec sumSq
    simp [Real.sqrt_one]
  exact ⟨⟨rfl, hn⟩, (cosineSimilarity_spec [(1:ℝ)] [(1:ℝ)]).1 rfl hn hn⟩

/-- C6: with a fingerprint filter present, `searchSimilar` asks the index for
`limit * 20` raw candidates and up to `limit * 5` pre-filter results
(constants `20 > 5 > 1`), then applies the fingerprint filter and truncates
to at most `limit` entries, all of which satisfy the filter. -/
theorem searchSimilar_candidate_widening (ranked : List SimilaritySearchResult)
    (limit : Nat) (h : String) :
    searchNumCandidates limit = limit * 20 ∧
    searchPreFilterLimit limit (some h) = limit * 5 ∧
    (20 > 5 ∧ 5 > 1) ∧
    MongoDBVectorStore.searchSimilar ranked limit (some h) =
      (((ranked.take (limit * 20)).take (limit * 5)).filter
        fun r => mongoSchemaFilter h r.entry).take limit ∧
    (MongoDBVectorStore.searchSimilar ranked limit (some h)).length ≤ limit ∧
    ∀ r ∈ MongoDBVectorStore.searchSimilar ranked limit (some h),
      mongoSchemaFilter h r.entry = true := by
  refine ⟨rfl, rfl, ⟨by norm_num, by norm_num⟩, rfl, ?_, ?_⟩
  · unfold MongoDBVectorStore.searchSimilar
    exact List.length_take_le _ _
  · intro r hr
    unfold MongoDBVectorStore.searchSimilar at hr
    exact (List.mem_filter.mp (List.mem_of_mem_take hr)).2

/-- Witness for C6 at a one-element ranked list and `limit = 1`. -/
theorem searchSimilar_candidate_widening_witness :
    MongoDBVectorStore.searchSimilar [{ entry := legacyEntry, score := 1 }] 1
        (some "schema_abc") = [{ entry := legacyEntry, score := 1 }] ∧
    mongoSchemaFilter "schema_abc" legacyEntry = true := by
  refine ⟨by decide, ?_⟩
  exact (searchSimilar_candidate_widening [{ entry := legacyEntry, score := 1 }] 1
    "schema_abc").2.2.2.2.2 { entry := legacyEntry, score := 1 } (by decide)

/-- C2: divergence between the two `searchSimilar` implementations on a
legacy entry (no stored schema hash) under a fingerprint filter.  The
MongoDB pipeline keeps the entry (its `$match` accepts an absent hash,
"backward compat"), while the mock store's filter requires exact hash
equality and drops it. -/
theorem wildcard_filter_mongo_vs_mock :
    MongoDBVectorStore.searchSimilar [{ entry := legacyEntry, score := 1 }] 1
        (some "schema_abc") = [{ entry := legacyEntry, score := 1 }] ∧
    (MockVectorStore.searchSimilar (fun _ _ => 1) mockStoreLegacy [1] 1
        (some "schema_abc")).1 = [] := by
  constructor
  · decide
  · decide

/-- C9: `setThreshold` rejects exactly the values outside `[0,1]` (with the
source's validation error), accepts both endpoints, and on success only the
threshold field changes; on rejection no new state is produced, so the
stored threshold and the cache state are untouched by construction. -/
theorem setThreshold_spec (st : SemanticCacheState Sch Val) (t : ℚ) :
    ((∃ msg, SemanticCache.setThreshold st t = .error msg) ↔ t < 0 ∨ 1 < t) ∧
    (t < 0 ∨ 1 < t →
      SemanticCache.setThreshold st t = .error "Threshold must be between 0 and 1") ∧
    (0 ≤ t → t ≤ 1 →
      SemanticCache.setThreshold st t = .ok { st with similarityThreshold := t }) := by
  unfold SemanticCache.setThreshold
  by_cases hc : t < 0 ∨ 1 < t
  · rw [if_pos hc]
    refine ⟨⟨fun _ => hc, fun _ => ⟨_, rfl⟩⟩, fun _ => rfl, ?_⟩
    intro h0 h1
    rcases hc with hc | hc
    · exact absurd h0 (not_le.mpr hc)
    · exact absurd h1 (not_le.mpr hc)
  · rw [if_neg hc]
    refine ⟨⟨?_, fun h => absurd h hc⟩, fun h => absurd h hc, fun _ _ => rfl⟩
    rintro ⟨msg, hmsg⟩
    exact Except.noConfusion hmsg

/-- Witness for C9 at the accepted endpoint `t = 1`. -/
theorem setThreshold_spec_witness :
    ((0:ℚ) ≤ 1 ∧ (1:ℚ) ≤ 1) ∧
    SemanticCache.setThreshold stEmpty 1 = .ok { stEmpty with similarityThreshold := 1 } :=
  ⟨⟨by norm_num, le_refl 1⟩, (setThreshold_spec stEmpty 1).2.2 (by norm_num) (le_refl 1)⟩

/-- Looking up the updated key after a keyed map update finds the transformed
entry. -/
theorem find?_map_keyed_update (l : List (String × CacheEntry)) (eid : String)
    (f : CacheEntry → CacheEntry) :
    ((l.map fun p => if p.1 = eid then (p.1, f p.2) else p).find? fun p => p.1 = eid)
      = (l.find? fun p => p.1 = eid).map fun p => (p.1, f p.2) := by
  induction l with
  | nil => rfl
  | cons hd tl ih =>
    by_cases hh : hd.1 = eid
    · simp [List.find?_cons, hh]
    · simp [List.find?_cons, hh, ih]

/-- Looking up a different key after a keyed map update is unaffected. -/
theorem find?_map_keyed_update_ne (l : List (String × CacheEntry)) (eid other : String)
    (hne : other ≠ eid) (f : CacheEntry → CacheEntry) :
    ((l.map fun p => if p.1 = eid then (p.1, f p.2) else p).find? fun p => p.1 = other)
      = l.find? fun p => p.1 = other := by
  induction l with
  | nil => rfl
  | cons hd tl ih =>
    by_cases hh : hd.1 = eid
    · simp [List.find?_cons, hh, hne.symm, ih]
    · by_cases ho : hd.1 = other
      · simp [List.find?_cons, hh, ho, hne, ih]
      · simp [List.find?_cons, hh, ho, ih]

/-- `recordHit` transforms exactly the looked-up entry. -/
theorem recordHit_lookupEntry (s : MockVectorStore) (eid : String) (now : Nat) :
    (s.recordHit eid now).lookupEntry eid
      = (s.lookupEntry eid).map (bumpHit now) := by
  unfold MockVectorStore.recordHit MockVectorStore.lookupEntry
  simp only []
  rw [find?_map_keyed_update]
  cases s.entries.find? fun p => p.1 = eid with
  | none => rfl
  | some p => rfl

/-- The last element of a nonempty list, as `getLastD` with any default. -/
theorem getLast?_cons_eq_getLastD (t0 d : Nat) (ts : List Nat) :
    (t0 :: ts).getLast? = some ((t0 :: ts).getLastD d) := by
  induction ts generalizing t0 with
  | nil => rfl
  | cons t1 ts ih =>
    rw [List.getLastD_cons, List.getLast?_cons_cons]
    exact ih t1

/-- Iterated `recordHit` on one id: the hit count grows by the number of
calls and `lastAccessedAt` becomes the last call time. -/
theorem recordHit_fold_lookupEntry (ts : List Nat) :
    ∀ (s : MockVectorStore) (eid : String) (e : CacheEntry),
      s.lookupEntry eid = some e →
      (ts.foldl (fun acc t => acc.recordHit eid t) s).lookupEntry eid
        = some { e with hitCount := e.hitCount + ts.length,
                        lastAccessedAt := ts.getLastD e.lastAccessedAt } := by
  induction ts with
  | nil =>
    intro s eid e h
    simpa using h
  | cons t0 ts ih =>
    intro s eid e h
    have h1 : (s.recordHit eid t0).lookupEntry eid = some (bumpHit t0 e) := by
      rw [recordHit_lookupEntry, h]
      rfl
    have h2 := ih (s.recordHit eid t0) eid _ h1
    simp only [List.foldl_cons]
    rw [h2]
    unfold bumpHit
    rw [List.getLastD_cons]
    simp [List.length_cons, Nat.add_assoc, Nat.add_comm 1 ts.length]

/-- C8: `recordHit` on an existing entry increments its hit count by exactly
one, sets `lastAccessedAt` to the call time, changes no other field and no
other entry or store field; starting from hit count `0`, after `k` recorded
hits the hit count is `k` and `lastAccessedAt` is the last hit's time. -/
theorem recordHit_spec (s : MockVectorStore) (eid : String) (e : CacheEntry) (now : Nat)
    (h : s.lookupEntry eid = some e) :
    (s.recordHit eid now).lookupEntry eid
      = some { e with hitCount := e.hitCount + 1, lastAccessedAt := now } ∧
    (∀ other : String, other ≠ eid →
      (s.recordHit eid now).lookupEntry other = s.lookupEntry other) ∧
    (s.recordHit eid now).storeCalls = s.storeCalls ∧
    (s.recordHit eid now).searchCalls = s.searchCalls ∧
    (s.recordHit eid now).idCounter = s.idCounter ∧
    (e.hitCount = 0 → ∀ (t0 : Nat) (ts : List Nat), ∃ tLast,
      (t0 :: ts).getLast? = some tLast ∧
      ((t0 :: ts).foldl (fun acc t => acc.recordHit eid t) s).lookupEntry eid
        = some { e with hitCount := (t0 :: ts).length, lastAccessedAt := tLast }) := by
  refine ⟨?_, ?_, rfl, rfl, rfl, ?_⟩
  · rw [recordHit_lookupEntry, h]
    rfl
  · intro other hne
    unfold MockVectorStore.recordHit MockVectorStore.lookupEntry
    simp only []
    rw [find?_map_keyed_update_ne _ _ _ hne]
  · intro h0 t0 ts
    refine ⟨(t0 :: ts).getLastD e.lastAccessedAt,
      getLast?_cons_eq_getLastD t0 e.lastAccessedAt ts, ?_⟩
    rw [recordHit_fold_lookupEntry (t0 :: ts) s eid e h, h0]
    rw [Nat.zero_add]

/-- Witness for C8: one hit at time 5, then two hits at times 7 and 9. -/
theorem recordHit_spec_witness :
    mockStoreLegacy.lookupEntry "e1" = some legacyEntry ∧
    (mockStoreLegacy.recordHit "e1" 5).lookupEntry "e1"
      = some { legacyEntry with hitCount := legacyEntry.hitCount + 1,
                                lastAccessedAt := 5 } ∧
    ([7, 9].foldl (fun acc t => acc.recordHit "e1" t) mockStoreLegacy).lookupEntry "e1"
      = some { legacyEntry with hitCount := 2, lastAccessedAt := 9 } := by
  have h : mockStoreLegacy.lookupEntry "e1" = some legacyEntry := by decide
  refine ⟨h, (recordHit_spec mockStoreLegacy "e1" legacyEntry 5 h).1, ?_⟩
  obtain ⟨tLast, hLast, hFold⟩ :=
    (recordHit_spec mockStoreLegacy "e1" legacyEntry 7 h).2.2.2.2.2 rfl 7 [9]
  have ht : tLast = 9 := by
    simpa using hLast.symm
  rw [ht] at hFold
  exact hFold

/-- The state component of a mock search: only the call log grows. -/
theorem searchSimilar_snd (sim : List ℚ → List ℚ → ℚ) (s : MockVectorStore)
    (embedding : List ℚ) (limit : Nat) (sh : Option String) :
    (MockVectorStore.searchSimilar sim s embedding limit sh).2
      = { s with searchCalls := s.searchCalls ++ [(embedding, limit, sh)] } := rfl

/-- A search over an empty store returns no results. -/
theorem searchSimilar_fst_of_entries_nil (sim : List ℚ → List ℚ → ℚ)
    (s : MockVectorStore) (embedding : List ℚ) (limit : Nat) (sh : Option String)
    (h : s.entries = []) :
    (MockVectorStore.searchSimilar sim s embedding limit sh).1 = [] := by
  simp [MockVectorStore.searchSimilar, h, sortByScoreDesc]

/-- C7: `lookup` never touches the LLM and never stores: the LLM state is
unchanged (no completion call), the store log and id counter are unchanged,
and the entries are either untouched or transformed by exactly one
`recordHit` update on an actual hit; against an empty index it returns
`hit = false` with no score. -/
theorem lookup_frame (env : Env Sch Val) (st : SemanticCacheState Sch Val)
    (queryText : String) (embedding : Option (List ℚ)) (schemaHash : Option String)
    (now : Nat) :
    (SemanticCache.lookup env st queryText embedding schemaHash now).2.llm = st.llm ∧
    (SemanticCache.lookup env st queryText embedding schemaHash now).2.storage.storeCalls
      = st.storage.storeCalls ∧
    (SemanticCache.lookup env st queryText embedding schemaHash now).2.storage.idCounter
      = st.storage.idCounter ∧
    ((SemanticCache.lookup env st queryText embedding schemaHash now).2.storage.entries
        = st.storage.entries ∨
      ∃ eid lr,
        (SemanticCache.lookup env st queryText embedding schemaHash now).1 = .ok lr ∧
        lr.hit = true ∧
        (SemanticCache.lookup env st queryText embedding schemaHash now).2.storage.entries
          = st.storage.entries.map
              fun p => if p.1 = eid then (p.1, bumpHit now p.2) else p) ∧
    (st.storage.entries = [] →
      ∀ lr st2,
        SemanticCache.lookup env st queryText embedding schemaHash now = (.ok lr, st2) →
        lr.hit = false ∧ lr.score = none) := by
  simp only [SemanticCache.lookup]
  rcases hemb : (match embedding with
    | some e => Except.ok e
    | none => env.embedF queryText : Except String (List ℚ)) with e | qe
  · refine ⟨rfl, rfl, rfl, Or.inl rfl, ?_⟩
    intro _ lr st2 hcontra
    exact absurd (congrArg Prod.fst hcontra) (by simp)
  · rcases hres : (MockVectorStore.searchSimilar env.sim st.storage qe 1 schemaHash).1
      with _ | ⟨top, rest⟩
    · refine ⟨by simp [hres, searchSimilar_snd], by simp [hres, searchSimilar_snd],
        by simp [hres, searchSimilar_snd], Or.inl (by simp [hres, searchSimilar_snd]), ?_⟩
      intro _ lr st2 hok
      simp only [hres] at hok
      have h2 := Except.ok.inj (congrArg Prod.fst hok)
      rw [← h2]
      exact ⟨rfl, rfl⟩
    · have hnil5 : st.storage.entries = [] → False := by
        intro hnil
        have := searchSimilar_fst_of_entries_nil env.sim st.storage qe 1 schemaHash hnil
        rw [hres] at this
        exact absurd this (by simp)
      by_cases hth : st.similarityThreshold ≤ top.score
      · rcases hid : top.entry.id with _ | eid
        · refine ⟨by simp [hres, hth, hid, searchSimilar_snd],
            by simp [hres, hth, hid, searchSimilar_snd],
            by simp [hres, hth, hid, searchSimilar_snd],
            Or.inl (by simp [hres, hth, hid, searchSimilar_snd]),
            fun hnil => absurd hnil (fun h => hnil5 h)⟩
        · refine ⟨by simp [hres, hth, hid, searchSimilar_snd, MockVectorStore.recordHit],
            by simp [hres, hth, hid, searchSimilar_snd, MockVectorStore.recordHit],
            by simp [hres, hth, hid, searchSimilar_snd, MockVectorStore.recordHit],
            Or.inr ⟨eid,
              { hit := true, response := some top.entry.response,
                score := some top.score, query := queryText },
              by simp [hres, hth, hid],
              rfl,
              by simp [hres, hth, hid, searchSimilar_snd, MockVectorStore.recordHit]⟩,
            fun hnil => absurd hnil (fun h => hnil5 h)⟩
      · refine ⟨by simp [hres, hth, searchSimilar_snd],
          by simp [hres, hth, searchSimilar_snd],
          by simp [hres, hth, searchSimilar_snd],
          Or.inl (by simp [hres, hth, searchSimilar_snd]),
          fun hnil => absurd hnil (fun h => hnil5 h)⟩

/-- Witness for C7: a lookup against the empty index. -/
theorem lookup_frame_witness :
    stEmpty.storage.entries = [] ∧
    (SemanticCache.lookup envTriv stEmpty "q" none none 0).2.llm = stEmpty.llm ∧
    ({ hit := false, response := none, score := none, query := "q" } :
        CacheLookupResult).hit = false ∧
    ({ hit := false, response := none, score := none, query := "q" } :
        CacheLookupResult).score = none := by
  have h := lookup_frame envTriv stEmpty "q" none none 0
  have hcalc : SemanticCache.lookup envTriv stEmpty "q" none none 0
      = (.ok { hit := false, response := none, score := none, query := "q" },
         { stEmpty with storage :=
            { stEmpty.storage with searchCalls := [([1], 1, none)] } }) := rfl
  have h5 := h.2.2.2.2 rfl _ _ hcalc
  exact ⟨rfl, h.1, h5.1, h5.2⟩

/-- C1: for both `query` and `lookup`, the outcome is a cache hit exactly
when the similarity search returns at least one result and the top result's
score is at or above the current threshold (equality counts as a hit). -/
theorem hit_decision (env : Env Sch Val) (st : SemanticCacheState Sch Val)
    (queryText : String) (options : Option Sch) (sh : Option String)
    (now : Nat) (emb : List ℚ)
    (hembed : env.embedF queryText = .ok emb) :
    (∀ r st2, SemanticCache.query env st queryText options now = (.ok r, st2) →
      (r.fromCache = true ↔
        ∃ top rest,
          (st.storage.searchSimilar env.sim emb 1
            (options.map (computeSchemaHash env))).1 = top :: rest ∧
          st.similarityThreshold ≤ top.score)) ∧
    (∀ lr st2, SemanticCache.lookup env st queryText (some emb) sh now = (.ok lr, st2) →
      (lr.hit = true ↔
        ∃ top rest,
          (st.storage.searchSimilar env.sim emb 1 sh).1 = top :: rest ∧
          st.similarityThreshold ≤ top.score)) := by
  constructor
  · intro r st2 hok
    simp only [SemanticCache.query, hembed] at hok
    rcases hres : (st.storage.searchSimilar env.sim emb 1
        (options.map (computeSchemaHash env))).1 with _ | ⟨top, rest⟩
    · simp only [hres] at hok
      rcases options with _ | sch
      · rcases hcf : st.llm.completeFn queryText with e | resp
        · simp only [MockLLMProvider.complete, hcf] at hok
          exact absurd (congrArg Prod.fst hok) (by simp)
        · simp only [MockLLMProvider.complete, hcf] at hok
          rw [← Except.ok.inj (congrArg Prod.fst hok)]
          simp [hres]
      · rcases hcf : st.llm.structuredFn queryText sch with e | v
        · simp only [MockLLMProvider.completeStructured, hcf] at hok
          exact absurd (congrArg Prod.fst hok) (by simp)
        · simp only [MockLLMProvider.completeStructured, hcf] at hok
          rw [← Except.ok.inj (congrArg Prod.fst hok)]
          simp [hres]
    · simp only [hres] at hok
      by_cases hth : st.similarityThreshold ≤ top.score
      · rw [if_pos hth] at hok
        rcases options with _ | sch
        · rw [← Except.ok.inj (congrArg Prod.fst hok)]
          exact ⟨fun _ => ⟨top, rest, rfl, hth⟩, fun _ => rfl⟩
        · rcases hjp : env.jsonParse top.entry.response with e | v
          · simp only [hjp] at hok
            exact absurd (congrArg Prod.fst hok) (by simp)
          · simp only [hjp] at hok
            rw [← Except.ok.inj (congrArg Prod.fst hok)]
            exact ⟨fun _ => ⟨top, rest, rfl, hth⟩, fun _ => rfl⟩
      · rw [if_neg hth] at hok
        rcases options with _ | sch
        · rcases hcf : st.llm.completeFn queryText with e | resp
          · simp only [MockLLMProvider.complete, hcf] at hok
            exact absurd (congrArg Prod.fst hok) (by simp)
          · simp only [MockLLMProvider.complete, hcf] at hok
            rw [← Except.ok.inj (congrArg Prod.fst hok)]
            refine ⟨fun hcontra => absurd hcontra (by simp), fun hrhs => ?_⟩
            obtain ⟨top2, rest2, heq, hle⟩ := hrhs
            cases heq
            exact absurd hle hth
        · rcases hcf : st.llm.structuredFn queryText sch with e | v
          · simp only [MockLLMProvider.completeStructured, hcf] at hok
            exact absurd (congrArg Prod.fst hok) (by simp)
          · simp only [MockLLMProvider.completeStructured, hcf] at hok
            rw [← Except.ok.inj (congrArg Prod.fst hok)]
            refine ⟨fun hcontra => absurd hcontra (by simp), fun hrhs => ?_⟩
            obtain ⟨top2, rest2, heq, hle⟩ := hrhs
            cases heq
            exact absurd hle hth
  · intro lr st2 hok
    simp only [SemanticCache.lookup] at hok
    rcases hres : (st.storage.searchSimilar env.sim emb 1 sh).1 with _ | ⟨top, rest⟩
    · simp only [hres] at hok
      rw [← Except.ok.inj (congrArg Prod.fst hok)]
      simp [hres]
    · simp only [hres] at hok
      by_cases hth : st.similarityThreshold ≤ top.score
      · rw [if_pos hth] at hok
        rw [← Except.ok.inj (congrArg Prod.fst hok)]
        exact ⟨fun _ => ⟨top, rest, rfl, hth⟩, fun _ => rfl⟩
      · rw [if_neg hth] at hok
        rw [← Except.ok.inj (congrArg Prod.fst hok)]
        refine ⟨fun hcontra => absurd hcontra (by simp), fun hrhs => ?_⟩
        obtain ⟨top2, rest2, heq, hle⟩ := hrhs
        cases heq
        exact absurd hle hth

/-- Witness for C1: a query over `stOne` hits (score `1`, threshold `1`: the boundary counts as a hit). -/
theorem hit_decision_witness :
    envTriv.embedF "q" = .ok [1] ∧
    (({ response := .text "Paris", fromCache := true, similarityScore := some 1 } :
        QueryResult Unit).fromCache = true ↔
      ∃ top rest,
        (stOne.storage.searchSimilar envTriv.sim [1] 1
          ((none : Option Unit).map (computeSchemaHash envTriv))).1 = top :: rest ∧
        stOne.similarityThreshold ≤ top.score) := by
  have hq1 : (SemanticCache.query envTriv stOne "q" none 3).1
      = .ok { response := .text "Paris", fromCache := true, similarityScore := some 1 } := by
    decide
  have hq : SemanticCache.query envTriv stOne "q" none 3
      = (.ok { response := .text "Paris", fromCache := true, similarityScore := some 1 },
         (SemanticCache.query envTriv stOne "q" none 3).2) :=
    Prod.ext hq1 rfl
  exact ⟨rfl, (hit_decision envTriv stOne "q" none none 3 [1] rfl).1 _ _ hq⟩

/-- C4: on a miss (no result, or top score below threshold), `query` invokes
the completion service (structured with the schema when supplied, free text
otherwise), serializes a structured response with `JSON.stringify`, stores
exactly one new entry carrying the fresh embedding, the fingerprint and hit
count `0`, and returns the response with `fromCache = false` and no
similarity score. -/
theorem query_miss_behavior (env : Env Sch Val) (st : SemanticCacheState Sch Val)
    (queryText : String) (options : Option Sch) (now : Nat) (emb : List ℚ)
    (hembed : env.embedF queryText = .ok emb)
    (hmiss : (st.storage.searchSimilar env.sim emb 1
        (options.map (computeSchemaHash env))).1 = [] ∨
      ∃ top rest, (st.storage.searchSimilar env.sim emb 1
        (options.map (computeSchemaHash env))).1 = top :: rest ∧
        ¬ st.similarityThreshold ≤ top.score) :
    ∀ r st2, SemanticCache.query env st queryText options now = (.ok r, st2) →
      r.fromCache = false ∧ r.similarityScore = none ∧
      (match options with
       | none =>
         st2.llm.completeCalls = st.llm.completeCalls ++ [queryText] ∧
         ∃ resp, st.llm.completeFn queryText = .ok resp ∧
           r.response = .text resp ∧
           st2.storage.storeCalls = st.storage.storeCalls ++
             [{ id := none, query := queryText, response := resp, embedding := emb,
                createdAt := now, hitCount := 0, lastAccessedAt := now,
                schemaHash := none, metadata := none }] ∧
           st2.storage.entries = st.storage.entries ++
             [("mock_id_" ++ toString (st.storage.idCounter + 1),
               { id := some ("mock_id_" ++ toString (st.storage.idCounter + 1)),
                 query := queryText, response := resp, embedding := emb,
                 createdAt := now, hitCount := 0, lastAccessedAt := now,
                 schemaHash := none, metadata := none })]
       | some sch =>
         st2.llm.structuredCalls = st.llm.structuredCalls ++ [(queryText, sch)] ∧
         ∃ v, st.llm.structuredFn queryText sch = .ok v ∧
           r.response = .structured v ∧
           st2.storage.storeCalls = st.storage.storeCalls ++
             [{ id := none, query := queryText, response := env.stringify v,
                embedding := emb, createdAt := now, hitCount := 0,
                lastAccessedAt := now,
                schemaHash := some (computeSchemaHash env sch), metadata := none }] ∧
           st2.storage.entries = st.storage.entries ++
             [("mock_id_" ++ toString (st.storage.idCounter + 1),
               { id := some ("mock_id_" ++ toString (st.storage.idCounter + 1)),
                 query := queryText, response := env.stringify v, embedding := emb,
                 createdAt := now, hitCount := 0, lastAccessedAt := now,
                 schemaHash := some (computeSchemaHash env sch),
                 metadata := none })]) := by
  intro r st2 hok
  simp only [SemanticCache.query, hembed] at hok
  rcases hmiss with hres | ⟨top, rest, hres, hth⟩ <;> simp only [hres] at hok
  case inl =>
    rcases options with _ | sch
    · rcases hcf : st.llm.completeFn queryText with e | resp
      · simp only [MockLLMProvider.complete, hcf] at hok
        exact absurd (congrArg Prod.fst hok) (by simp)
      · simp only [MockLLMProvider.complete, hcf] at hok
        cases Except.ok.inj (congrArg Prod.fst hok)
        cases congrArg Prod.snd hok
        refine ⟨rfl, rfl, rfl, resp, rfl, rfl, ?_, ?_⟩
        · simp [MockVectorStore.store, searchSimilar_snd]
        · simp [MockVectorStore.store, searchSimilar_snd]
    · rcases hcf : st.llm.structuredFn queryText sch with e | v
      · simp only [MockLLMProvider.completeStructured, hcf] at hok
        exact absurd (congrArg Prod.fst hok) (by simp)
      · simp only [MockLLMProvider.completeStructured, hcf] at hok
        cases Except.ok.inj (congrArg Prod.fst hok)
        cases congrArg Prod.snd hok
        refine ⟨rfl, rfl, rfl, v, hcf, rfl, ?_, ?_⟩
        · simp [MockVectorStore.store, searchSimilar_snd]
        · simp [MockVectorStore.store, searchSimilar_snd]
  case inr =>
    rw [if_neg hth] at hok
    rcases options with _ | sch
    · rcases hcf : st.llm.completeFn queryText with e | resp
      · simp only [MockLLMProvider.complete, hcf] at hok
        exact absurd (congrArg Prod.fst hok) (by simp)
      · simp only [MockLLMProvider.complete, hcf] at hok
        cases Except.ok.inj (congrArg Prod.fst hok)
        cases congrArg Prod.snd hok
        refine ⟨rfl, rfl, rfl, resp, rfl, rfl, ?_, ?_⟩
        · simp [MockVectorStore.store, searchSimilar_snd]
        · simp [MockVectorStore.store, searchSimilar_snd]
    · rcases hcf : st.llm.structuredFn queryText sch with e | v
      · simp only [MockLLMProvider.completeStructured, hcf] at hok
        exact absurd (congrArg Prod.fst hok) (by simp)
      · simp only [MockLLMProvider.completeStructured, hcf] at hok
        cases Except.ok.inj (congrArg Prod.fst hok)
        cases congrArg Prod.snd hok
        refine ⟨rfl, rfl, rfl, v, hcf, rfl, ?_, ?_⟩
        · simp [MockVectorStore.store, searchSimilar_snd]
        · simp [MockVectorStore.store, searchSimilar_snd]

/-- Witness for C4: a structured query against the empty cache misses and
stores one serialized entry with the fingerprint. -/
theorem query_miss_behavior_witness :
    envTriv.embedF "q" = .ok [1] ∧
    (stEmpty.storage.searchSimilar envTriv.sim [1] 1
        ((some () : Option Unit).map (computeSchemaHash envTriv))).1 = [] ∧
    (SemanticCache.query envTriv stEmpty "q" (some ()) 4).2.storage.storeCalls
      = stEmpty.storage.storeCalls ++
        [{ id := none, query := "q", response := envTriv.stringify (),
           embedding := [1], createdAt := 4, hitCount := 0, lastAccessedAt := 4,
           schemaHash := some (computeSchemaHash envTriv ()), metadata := none }] := by
  have hsearch : (stEmpty.storage.searchSimilar envTriv.sim [1] 1
      ((some () : Option Unit).map (computeSchemaHash envTriv))).1 = [] := by decide
  have hq1 : (SemanticCache.query envTriv stEmpty "q" (some ()) 4).1
      = .ok { response := .structured (), fromCache := false,
              similarityScore := none } := by decide
  have hq : SemanticCache.query envTriv stEmpty "q" (some ()) 4
      = (.ok { response := .structured (), fromCache := false, similarityScore := none },
         (SemanticCache.query envTriv stEmpty "q" (some ()) 4).2) := Prod.ext hq1 rfl
  have h := query_miss_behavior envTriv stEmpty "q" (some ()) 4 [1] rfl
    (Or.inl hsearch) _ _ hq
  obtain ⟨v, hv, hresp, hstore, hentries⟩ := h.2.2.2
  exact ⟨rfl, hsearch, hstore⟩

/-- C3 counterexample: a structured query whose stored response fails to
deserialize on a cache hit raises, yet the matched entry's hit count has
been incremented — the cache state is NOT unchanged. -/
theorem query_deserialization_mutates :
    (SemanticCache.query envParseFail stSchemaOne "q" (some ()) 3).1
      = .error "SyntaxError" ∧
    (SemanticCache.query envParseFail stSchemaOne "q" (some ()) 3).2.storage.entries
      ≠ stSchemaOne.storage.entries ∧
    ((SemanticCache.query envParseFail stSchemaOne "q" (some ()) 3).2.storage.entries.map
        fun p => p.2.hitCount) = [1] := by
  refine ⟨by decide, by decide, by decide⟩

/-- A `recordHit`-style keyed update preserves every entry's skeleton. -/
theorem skeleton_map_recordHit (l : List (String × CacheEntry)) (eid : String)
    (now : Nat) :
    ((l.map fun p => if p.1 = eid then (p.1, bumpHit now p.2) else p).map
        fun p => (p.1, entrySkeleton p.2))
      = l.map fun p => (p.1, entrySkeleton p.2) := by
  induction l with
  | nil => rfl
  | cons hd tl ih =>
    by_cases hh : hd.1 = eid
    · simp only [List.map_cons, if_pos hh]
      rw [ih]
      rfl
    · simp only [List.map_cons, if_neg hh]
      rw [ih]

/-- C3 (amended): a failed `query` stores no entry — the store log, the id
counter, and every entry's persistent fields are unchanged; only the
hit-tracking pair of the matched entry may have changed (the
deserialization-failure path increments it before throwing). -/
theorem query_failure_no_store (env : Env Sch Val) (st : SemanticCacheState Sch Val)
    (queryText : String) (options : Option Sch) (now : Nat) :
    ∀ e st2, SemanticCache.query env st queryText options now = (.error e, st2) →
      st2.storage.storeCalls = st.storage.storeCalls ∧
      st2.storage.idCounter = st.storage.idCounter ∧
      (st2.storage.entries.map fun p => (p.1, entrySkeleton p.2))
        = st.storage.entries.map fun p => (p.1, entrySkeleton p.2) := by
  intro e st2 herr
  rcases hE : env.embedF queryText with eE | emb
  · simp only [SemanticCache.query, hE] at herr
    cases congrArg Prod.snd herr
    exact ⟨rfl, rfl, rfl⟩
  · simp only [SemanticCache.query, hE] at herr
    rcases hres : (st.storage.searchSimilar env.sim emb 1
        (options.map (computeSchemaHash env))).1 with _ | ⟨top, rest⟩ <;>
      simp only [hres] at herr
    · rcases options with _ | sch
      · rcases hcf : st.llm.completeFn queryText with eC | resp <;>
          simp only [MockLLMProvider.complete, hcf] at herr
        · cases congrArg Prod.snd herr
          exact ⟨rfl, rfl, rfl⟩
        · exact absurd (congrArg Prod.fst herr) (by simp)
      · rcases hcf : st.llm.structuredFn queryText sch with eC | v <;>
          simp only [MockLLMProvider.completeStructured, hcf] at herr
        · cases congrArg Prod.snd herr
          exact ⟨rfl, rfl, rfl⟩
        · exact absurd (congrArg Prod.fst herr) (by simp)
    · by_cases hth : st.similarityThreshold ≤ top.score
      · rw [if_pos hth] at herr
        rcases options with _ | sch
        · exact absurd (congrArg Prod.fst herr) (by simp)
        · rcases hjp : env.jsonParse top.entry.response with eJ | v <;>
            simp only [hjp] at herr
          · cases congrArg Prod.snd herr
            rcases hid : top.entry.id with _ | eid <;> simp only [hid]
            · exact ⟨rfl, rfl, rfl⟩
            · refine ⟨rfl, rfl, ?_⟩
              simp only [MockVectorStore.recordHit, searchSimilar_snd]
              exact skeleton_map_recordHit st.storage.entries eid now
          · exact absurd (congrArg Prod.fst herr) (by simp)
      · rw [if_neg hth] at herr
        rcases options with _ | sch
        · rcases hcf : st.llm.completeFn queryText with eC | resp <;>
            simp only [MockLLMProvider.complete, hcf] at herr
          · cases congrArg Prod.snd herr
            exact ⟨rfl, rfl, rfl⟩
          · exact absurd (congrArg Prod.fst herr) (by simp)
        · rcases hcf : st.llm.structuredFn queryText sch with eC | v <;>
            simp only [MockLLMProvider.completeStructured, hcf] at herr
          · cases congrArg Prod.snd herr
            exact ⟨rfl, rfl, rfl⟩
          · exact absurd (congrArg Prod.fst herr) (by simp)

/-- Witness for C3 (amended): the deserialization-failure query mutates no
persistent field and stores nothing. -/
theorem query_failure_no_store_witness :
    (SemanticCache.query envParseFail stSchemaOne "q" (some ()) 3).1
      = .error "SyntaxError" ∧
    (SemanticCache.query envParseFail stSchemaOne "q" (some ()) 3).2.storage.storeCalls
      = stSchemaOne.storage.storeCalls ∧
    ((SemanticCache.query envParseFail stSchemaOne "q" (some ()) 3).2.storage.entries.map
        fun p => (p.1, entrySkeleton p.2))
      = stSchemaOne.storage.entries.map fun p => (p.1, entrySkeleton p.2) := by
  have hq1 : (SemanticCache.query envParseFail stSchemaOne "q" (some ()) 3).1
      = .error "SyntaxError" := by decide
  have hq : SemanticCache.query envParseFail stSchemaOne "q" (some ()) 3
      = (.error "SyntaxError",
         (SemanticCache.query envParseFail stSchemaOne "q" (some ()) 3).2) :=
    Prod.ext hq1 rfl
  have h := query_failure_no_store envParseFail stSchemaOne "q" (some ()) 3 _ _ hq
  exact ⟨hq1, h.1, h.2.2⟩

/-- C10: for schema-less queries against the same collaborator state the
schema-aware `query` and the string-only v1 `query` agree on the response
and the `fromCache` flag whenever the top match's stored response is a
non-empty string (or there is no match); but when the top match's stored
response is the empty string and its score meets the threshold, the v1
implementation treats it as a miss — it invokes the completion service and
stores a new entry — while the schema-aware implementation returns the
cached empty string with `fromCache = true`. -/
theorem query_v2_vs_v1 (env : Env Sch Val) (st : SemanticCacheState Sch Val)
    (queryText : String) (now : Nat) (emb : List ℚ)
    (hembed : env.embedF queryText = .ok emb) :
    ((∀ top rest, (st.storage.searchSimilar env.sim emb 1 none).1 = top :: rest →
        top.entry.response ≠ "") →
      queryView (SemanticCache.query env st queryText none now)
        = queryView (SemanticCacheV1.query env st queryText now)) ∧
    (∀ top rest,
      (st.storage.searchSimilar env.sim emb 1 none).1 = top :: rest →
      top.entry.response = "" →
      st.similarityThreshold ≤ top.score →
      (SemanticCache.query env st queryText none now).1
          = .ok { response := .text "", fromCache := true,
                  similarityScore := some top.score } ∧
      (SemanticCacheV1.query env st queryText now).2.llm.completeCalls
          = st.llm.completeCalls ++ [queryText] ∧
      ∀ resp, st.llm.completeFn queryText = .ok resp →
        (SemanticCacheV1.query env st queryText now).1
            = .ok { response := .text resp, fromCache := false,
                    similarityScore := none } ∧
        (SemanticCacheV1.query env st queryText now).2.storage.storeCalls
            = st.storage.storeCalls ++
              [{ id := none, query := queryText, response := resp, embedding := emb,
                 createdAt := now, hitCount := 0, lastAccessedAt := now,
                 schemaHash := none, metadata := none }]) := by
  constructor
  · intro hne
    rcases hres : (st.storage.searchSimilar env.sim emb 1 none).1 with _ | ⟨top, rest⟩
    · rcases hcf : st.llm.completeFn queryText with e | resp <;>
        simp [SemanticCache.query, SemanticCacheV1.query, SemanticCacheV1.lookup,
          hembed, hres, MockLLMProvider.complete, hcf, queryView]
    · have hr := hne top rest hres
      by_cases hth : st.similarityThreshold ≤ top.score
      · simp [SemanticCache.query, SemanticCacheV1.query, SemanticCacheV1.lookup,
          hembed, hres, hth, queryView, strTruthy, hr]
      · rcases hcf : st.llm.completeFn queryText with e | resp <;>
          simp [SemanticCache.query, SemanticCacheV1.query, SemanticCacheV1.lookup,
            hembed, hres, hth, queryView, strTruthy, MockLLMProvider.complete, hcf]
  · intro top rest hres hresp hth
    refine ⟨?_, ?_, ?_⟩
    · simp [SemanticCache.query, hembed, hres, hth, hresp]
    · rcases hid : top.entry.id with _ | eid <;>
        rcases hcf : st.llm.completeFn queryText with e | resp <;>
          simp [SemanticCacheV1.query, SemanticCacheV1.lookup, hembed, hres, hth,
            hresp, hid, strTruthy, MockLLMProvider.complete, hcf,
            MockVectorStore.store, MockVectorStore.recordHit, searchSimilar_snd]
    · intro resp hcf
      rcases hid : top.entry.id with _ | eid <;>
        constructor <;>
          simp [SemanticCacheV1.query, SemanticCacheV1.lookup, hembed, hres, hth,
            hresp, hid, strTruthy, MockLLMProvider.complete, hcf,
            MockVectorStore.store, MockVectorStore.recordHit, searchSimilar_snd]

/-- Witness for C10: on the empty-response hit the schema-aware version
returns the cached empty string, the v1 version calls the LLM and stores. -/
theorem query_v2_vs_v1_witness :
    (SemanticCache.query envTriv stEmptyResp "q" none 3).1
      = .ok { response := .text "", fromCache := true, similarityScore := some 1 } ∧
    (SemanticCacheV1.query envTriv stEmptyResp "q" 3).2.llm.completeCalls = ["q"] ∧
    (SemanticCacheV1.query envTriv stEmptyResp "q" 3).1
      = .ok { response := .text "r", fromCache := false, similarityScore := none } ∧
    (SemanticCacheV1.query envTriv stEmptyResp "q" 3).2.storage.storeCalls
      = [{ id := none, query := "q", response := "r", embedding := [1],
           createdAt := 3, hitCount := 0, lastAccessedAt := 3,
           schemaHash := none, metadata := none }] := by
  have hres : (stEmptyResp.storage.searchSimilar envTriv.sim [1] 1 none).1
      = [{ entry := emptyRespEntry, score := 1 }] := by decide
  have h := (query_v2_vs_v1 envTriv stEmptyResp "q" 3 [1] rfl).2
    { entry := emptyRespEntry, score := 1 } [] hres rfl (by decide)
  obtain ⟨h1, h2, h3⟩ := h
  obtain ⟨h4, h5⟩ := h3 "r" rfl
  exact ⟨h1, h2, h4, h5⟩
